import Mathlib

/-!
Shallow embedding of vs/workbench/contrib/searchEditor/browser/searchEditorInput.ts.

The TypeScript class SearchEditorInput and the module-level factory
getOrMakeSearchEditorInput are modelled as pure Lean functions over explicit
state records. Host services (text file service, backup service, file dialog
service, telemetry service, working copy service) are modelled as either
environment records holding the values they would return, or as logs of the
calls made to them. JS object identity is modelled by natural-number ids,
and the JS Map backing the module-level registry is modelled as a function
from keys to optional ids.
-/

namespace SearchEditor

/-- Scheme constant imported from searchEditor/browser/constants.ts (that file
is a collaborator outside the embedded source; only the name is used here). -/
def SearchEditorScheme : String := "search-editor"

/-- Model of vs/base/common/uri URI components. -/
structure URI where
  scheme : String
  authority : String := ""
  path : String := ""
  query : String := ""
  fragment : String := ""
  deriving DecidableEq, Repr

/-- Model of URI.toString: a rendering of the components. The claims only
depend on a uri having a definite string form, not on the exact format. -/
def URI.toString (u : URI) : String :=
  u.scheme ++ ":" ++ (if u.authority = "" then "" else "//" ++ u.authority) ++ u.path
    ++ (if u.query = "" then "" else "?" ++ u.query)
    ++ (if u.fragment = "" then "" else "#" ++ u.fragment)

/-- Model of Partial SearchConfiguration from constants.ts: every field of the
collaborator interface becomes optional. Only the query field is inspected by
the embedded code. -/
structure SearchConfig where
  query : Option String := none
  includes : Option String := none
  excludes : Option String := none
  contextLines : Option Int := none
  wholeWord : Option Bool := none
  caseSensitive : Option Bool := none
  regexp : Option Bool := none
  useIgnores : Option Bool := none
  showIncludesExcludes : Option Bool := none
  deriving DecidableEq, Repr

/-- Model of AutoSaveMode from filesConfigurationService (host enum). -/
inductive AutoSaveMode where
  | OFF
  | AFTER_SHORT_DELAY
  | AFTER_LONG_DELAY
  | ON_FOCUS_CHANGE
  | ON_WINDOW_CHANGE
  deriving DecidableEq, Repr

/-- Mutable per-instance state of one SearchEditorInput object: the readonly
resource uri, the private dirty flag, the private query field and the cached
highlight decorations (decorations are abstract tokens here). -/
structure InputState where
  resource : URI
  dirty : Bool
  query : Option SearchConfig
  highlights : List Nat
  deriving DecidableEq, Repr

/-- SearchEditorInput.isUntitled: the resource scheme equals SearchEditorScheme. -/
def InputState.isUntitled (inp : InputState) : Bool :=
  inp.resource.scheme == SearchEditorScheme

/-- SearchEditorInput.isDirty: returns the dirty flag. -/
def InputState.isDirty (inp : InputState) : Bool :=
  inp.dirty

/-- SearchEditorInput.isSaving: early-return chain over dirty, untitled and the
auto save mode reported by the files configuration service. -/
def InputState.isSaving (inp : InputState) (mode : AutoSaveMode) : Bool :=
  if !inp.isDirty then false
  else if inp.isUntitled then false
  else if mode = AutoSaveMode.AFTER_SHORT_DELAY then true
  else false

/-- Model of the JS string slice from index 0 to n, as used in getName. -/
def sliceTo (s : String) (n : Nat) : String :=
  String.mk (s.data.take n)

/-- The trimToMax closure inside getName: a label shorter than maxLength is kept,
any other label is cut to maxLength minus 3 characters and suffixed with dots. -/
def trimToMax (maxLength : Nat) (label : String) : String :=
  if label.length < maxLength then label else sliceTo label (maxLength - 3) ++ "..."

/-- Model of vs/base/common/path basename with an extension argument: the last
path segment, with the extension removed when it is a proper suffix. -/
def basename (p : String) (ext : String) : String :=
  let base := ((p.splitOn "/").getLast?).getD p
  if base.endsWith ext && base != ext then base.dropRight ext.length else base

/-- Model of the JS string trim used on the query: whitespace is removed from
both ends (written over the character list so that it evaluates by kernel
reduction). -/
def jsTrim (s : String) : String :=
  String.mk (((s.data.dropWhile Char.isWhitespace).reverse.dropWhile Char.isWhitespace).reverse)

/-- The localize call with key searchTitle.withQuery renders as a prefix plus
the label (default-language format). -/
def localizeWithQuery (label : String) : String := "Search: " ++ label

/-- The localize call with key searchTitle. -/
def searchTitle : String := "Search"

/-- SearchEditorInput.getName: for an untitled input the trimmed query is used
when truthy (non-empty), otherwise the plain title; a titled input uses the
basename of the resource path without the code-search extension. -/
def InputState.getName (inp : InputState) (maxLength : Nat) : String :=
  if inp.isUntitled then
    match inp.query.bind (fun c => c.query) with
    | some q =>
      let trimmed := jsTrim q
      if trimmed = "" then searchTitle else localizeWithQuery (trimToMax maxLength trimmed)
    | none => searchTitle
  else
    localizeWithQuery (basename inp.resource.path ".code-search")

/-- Argument of SearchEditorInput.matches: either another SearchEditorInput
(an id for object identity plus its state) or any other value. -/
inductive EditorArg where
  | searchInput (id : Nat) (st : InputState)
  | otherInput
  deriving DecidableEq, Repr

/-- SearchEditorInput.matches: identity first, then the instanceof branch
comparing truthy-and-equal paths or truthy-and-equal fragments. Named
inputMatches because the source name is a reserved Lean token. -/
def inputMatches (selfId : Nat) (self : InputState) (other : EditorArg) : Bool :=
  match other with
  | EditorArg.searchInput oid ost =>
    if selfId = oid then true
    else if (ost.resource.path != "" && ost.resource.path == self.resource.path)
        || (ost.resource.fragment != "" && ost.resource.fragment == self.resource.fragment) then
      true
    else false
  | EditorArg.otherInput => false

/-- The union argument of getOrMakeSearchEditorInput: either a uri with an
optional config, or a text, or a config. -/
inductive ExistingData where
  | withUri (uri : URI) (config : Option SearchConfig)
  | withText (text : String)
  | withConfig (config : SearchConfig)
  deriving DecidableEq, Repr

/-- The text member of the union (present only in the text variant). -/
def ExistingData.textField : ExistingData → Option String
  | ExistingData.withText t => some t
  | _ => none

/-- The config member of the union (possibly present in the uri variant,
always present in the config variant). -/
def ExistingData.configField : ExistingData → Option SearchConfig
  | ExistingData.withUri _ c => c
  | ExistingData.withConfig c => some c
  | ExistingData.withText _ => none

/-- JS truthiness of the text member: present and non-empty. -/
def ExistingData.textTruthy (d : ExistingData) : Bool :=
  match d.textField with
  | some t => t != ""
  | none => false

/-- Line 283 of the source: the config computed for the new input, which is
passed to the constructor as its startingConfig. The nullish-coalescing on the
config member and the JS truthiness test on the text member are explicit. -/
def computeConfig (extractSearchQuery : String → SearchConfig) (d : ExistingData) :
    SearchConfig :=
  match d.configField with
  | some c => c
  | none =>
    match d.textField with
    | some t => if t = "" then {} else extractSearchQuery t
    | none => {}

/-- The argument handed to the SearchEditorModel constructor: either the
already-open results text model together with the search config, or raw text
contents for a fresh model. -/
inductive ModelInit where
  | existingModel (config : SearchConfig)
  | rawText (contents : String)
  deriving DecidableEq, Repr

/-- What the host services answer during getModel: whether the model service
already has a text model for the uri, the backup (if any) resolved by the
backup file service, and the value the text file service would read. -/
structure GetModelEnv where
  hasExistingModel : Bool
  backup : Option String
  readValue : String
  deriving DecidableEq, Repr

deriving instance DecidableEq for Except

/-- Result of the getModel closure: the model-construction argument or the
thrown error message, plus whether discardBackup was invoked. -/
structure GetModelResult where
  result : Except String ModelInit
  backupDiscarded : Bool
  deriving DecidableEq, Repr

/-- Lines 285 to 310 of the source: the getModel closure created inside
getOrMakeSearchEditorInput, with the chain existing model, backup, text file
read for non-search-scheme uris, truthy text member, config member, error. -/
def getModel (serializeSearchConfiguration : SearchConfig → String) (uri : URI)
    (d : ExistingData) (config : SearchConfig) (env : GetModelEnv) : GetModelResult :=
  if env.hasExistingModel then
    { result := Except.ok (ModelInit.existingModel config), backupDiscarded := false }
  else
    match env.backup with
    | some b => { result := Except.ok (ModelInit.rawText b), backupDiscarded := true }
    | none =>
      if uri.scheme ≠ SearchEditorScheme then
        { result := Except.ok (ModelInit.rawText env.readValue), backupDiscarded := true }
      else if d.textTruthy then
        { result := Except.ok (ModelInit.rawText (d.textField.getD "")), backupDiscarded := true }
      else
        match d.configField with
        | some c =>
          { result := Except.ok (ModelInit.rawText (serializeSearchConfiguration c)),
            backupDiscarded := true }
        | none =>
          { result := Except.error "no initial contents for search editor",
            backupDiscarded := true }

/-- The uri generated at line 271 when the caller passes no uri: the
search-editor scheme with a random fragment; the random draw is modelled by a
counter rendered as the fragment. -/
def freshUri (rand : Nat) : URI :=
  { scheme := SearchEditorScheme, fragment := Nat.repr rand }

/-- Observable state of the SearchEditorModel held by an input: whether it is
disposed, the snapshot createSnapshot would produce, the searchConfig member,
and the decorations of the results text model (abstract tokens). -/
structure ModelState where
  disposed : Bool
  snapshot : String
  searchConfig : SearchConfig
  decorations : List Nat
  deriving DecidableEq, Repr

/-- Call logs of the host services touched by save and saveAs: writes through
the text file service, saveAs calls through the text file service (source and
target uri), and telemetry events published. -/
structure HostState where
  fileWrites : List (URI × String)
  saveAsCalls : List (URI × URI)
  telemetryEvents : List String
  deriving DecidableEq, Repr

/-- What the host services answer during saveAs: the path picked by the file
dialog service (none when the user cancels) and whether the saveAs call of the
text file service reports success. -/
structure SaveEnv where
  pickFileToSave : Option URI
  saveAsSucceeds : Bool
  deriving DecidableEq, Repr

/-- The editor input returned by save and saveAs: the receiver itself, or a
fresh input obtained from getOrMakeSearchEditorInput at the picked path with a
spread copy of the query. -/
inductive SaveOutcome where
  | self
  | reopened (path : URI) (config : SearchConfig)
  deriving DecidableEq, Repr

/-- SearchEditorInput.saveAs, lines 107 to 122. Calling suggestFileName first
runs reloadModel, which overwrites the query field with the searchConfig of the
model and caches the decorations; then the file dialog service picks a path;
only with a path are the telemetry event published and the saveAs call of the
text file service made; on success the dirty flag is cleared and either the
receiver or a reopened input at the new path is returned. -/
def saveAsOp (inp : InputState) (model : ModelState) (host : HostState) (env : SaveEnv) :
    Option SaveOutcome × InputState × HostState :=
  let inp1 := { inp with query := some model.searchConfig, highlights := model.decorations }
  match env.pickFileToSave with
  | none => (none, inp1, host)
  | some path =>
    let host1 := { host with
      telemetryEvents := host.telemetryEvents ++ ["searchEditor/saveSearchResults"],
      saveAsCalls := host.saveAsCalls ++ [(inp1.resource, path)] }
    if env.saveAsSucceeds then
      let inp2 := { inp1 with dirty := false }
      if path ≠ inp2.resource then
        (some (SaveOutcome.reopened path (inp2.query.getD {})), inp2, host1)
      else
        (some SaveOutcome.self, inp2, host1)
    else
      (none, inp1, host1)

/-- SearchEditorInput.save, lines 95 to 105: return undefined on a disposed
model, delegate to saveAs when untitled, otherwise write the snapshot of the
model to the resource through the text file service and clear the dirty flag. -/
def saveOp (inp : InputState) (model : ModelState) (host : HostState) (env : SaveEnv) :
    Option SaveOutcome × InputState × HostState :=
  if model.disposed then (none, inp, host)
  else if inp.isUntitled then saveAsOp inp model host env
  else
    (some SaveOutcome.self, { inp with dirty := false },
      { host with fileWrites := host.fileWrites ++ [(inp.resource, model.snapshot)] })

/-- SearchEditorInput.revert: the base revert is a no-op, the dirty flag is
cleared and true is returned. -/
def revertOp (inp : InputState) : Bool × InputState :=
  (true, { inp with dirty := false })

/-- The backup returned to the working copy service. -/
structure WorkingCopyBackup where
  content : String
  deriving DecidableEq, Repr

/-- SearchEditorInput.backup, lines 238 to 241: the content is the snapshot of
the model. -/
def backupOp (model : ModelState) : WorkingCopyBackup :=
  { content := model.snapshot }

/-- WorkingCopyCapabilities.Untitled flag of the working copy service. -/
def WorkingCopyCapabilities.Untitled : Nat := 2

/-- The working copy adapter registered by the constructor: resource and
capabilities are captured eagerly, while name, isDirty, backup, save and revert
are live accessors reading the current input and model state. -/
structure WorkingCopy where
  resource : URI
  capabilities : Nat
  name : InputState → String
  isDirty : InputState → Bool
  backup : ModelState → WorkingCopyBackup
  save : InputState → ModelState → HostState → SaveEnv → Bool × InputState × HostState
  revert : InputState → Bool × InputState

/-- Lines 73 to 84 of the source: the anonymous IWorkingCopy class built over
the input; its save converts the optional editor returned by the input save
into a boolean. -/
def mkWorkingCopyAdapter (resource : URI) : WorkingCopy :=
  { resource := resource
    capabilities :=
      if resource.scheme == SearchEditorScheme then WorkingCopyCapabilities.Untitled else 0
    name := fun inp => inp.getName 12
    isDirty := fun inp => inp.isDirty
    backup := fun model => backupOp model
    save := fun inp model host env =>
      let r := saveOp inp model host env
      (r.1.isSome, r.2.1, r.2.2)
    revert := fun inp => revertOp inp }

/-- The working copy service keeps the registered copies; registration appends. -/
def registerWorkingCopy (wc : WorkingCopy) (wcs : List WorkingCopy) : List WorkingCopy :=
  wcs ++ [wc]

/-- The SearchEditorInput constructor, lines 49 to 89: the fields are
initialised (dirty false, query is the starting config), one working copy
adapter is built and registered with the working copy service. -/
def constructInput (resource : URI) (startingConfig : Option SearchConfig)
    (wcs : List WorkingCopy) : InputState × WorkingCopy × List WorkingCopy :=
  let inp : InputState :=
    { resource := resource, dirty := false, query := startingConfig, highlights := [] }
  let wc := mkWorkingCopyAdapter resource
  (inp, wc, registerWorkingCopy wc wcs)

/-- State of the module-level registry of lines 262 and 312 to 316 together
with the population of input objects: the JS Map from uri strings to inputs
(identified by ids), the resource uri of each allocated input, which inputs
have been disposed, a fresh-id counter and a counter standing in for the
random fragment draws. -/
structure RegState where
  registry : String → Option Nat
  resourceOf : Nat → Option URI
  disposed : Nat → Bool
  nextId : Nat
  nextRand : Nat

/-- The empty module state: no inputs and an empty map. -/
def initState : RegState :=
  { registry := fun _ => none
    resourceOf := fun _ => none
    disposed := fun _ => false
    nextId := 0
    nextRand := 0 }

/-- Line 271 of the source: the uri of the call, the given one or a fresh
search-editor uri with a random fragment. -/
def dataUri (d : ExistingData) (rand : Nat) : URI :=
  match d with
  | ExistingData.withUri u _ => u
  | _ => freshUri rand

/-- Lines 263 to 318 of the source, restricted to the registry aspect: look
the uri string up in the map and return the existing input, or allocate a new
input, store it in the map under the uri string and subscribe its onDispose to
delete that entry. -/
def getOrMakeSearchEditorInput (d : ExistingData) (s : RegState) : Nat × RegState :=
  let uri := dataUri d s.nextRand
  let key := uri.toString
  match s.registry key with
  | some id => (id, s)
  | none =>
    let id := s.nextId
    (id,
      { registry := fun k => if k = key then some id else s.registry k
        resourceOf := fun n => if n = id then some uri else s.resourceOf n
        disposed := s.disposed
        nextId := id + 1
        nextRand := s.nextRand + 1 })

/-- SearchEditorInput.dispose combined with the onDispose subscription of line
315: an allocated, not yet disposed input is marked disposed and the map entry
at the string of its uri is deleted; the base class fires onDispose only once,
so disposing again is a no-op. -/
def disposeInput (id : Nat) (s : RegState) : RegState :=
  match s.resourceOf id with
  | none => s
  | some u =>
    if s.disposed id then s
    else
      { registry := fun k => if k = u.toString then none else s.registry k
        resourceOf := s.resourceOf
        disposed := fun n => if n = id then true else s.disposed n
        nextId := s.nextId
        nextRand := s.nextRand }

/-- The operations a client of the module can perform. -/
inductive Op where
  | make (d : ExistingData)
  | dispose (id : Nat)

/-- Effect of one operation on the module state. -/
def applyOp (op : Op) (s : RegState) : RegState :=
  match op with
  | Op.make d => (getOrMakeSearchEditorInput d s).2
  | Op.dispose id => disposeInput id s

/-- Effect of a sequence of operations. -/
def run (ops : List Op) (s : RegState) : RegState :=
  ops.foldl (fun s op => applyOp op s) s

/-- The states reachable from the empty module state. -/
inductive Reachable : RegState → Prop where
  | init : Reachable initState
  | step (s : RegState) (op : Op) : Reachable s → Reachable (applyOp op s)

/-- Registry invariant: every map entry points to an allocated, undisposed
input and is keyed by the string of its uri; every allocated undisposed input
is registered under the string of its uri; ids at or above the counter are
unallocated and undisposed. -/
def RegInv (s : RegState) : Prop :=
  (∀ k id, s.registry k = some id →
    ∃ u, s.resourceOf id = some u ∧ u.toString = k ∧ s.disposed id = false) ∧
  (∀ id u, s.resourceOf id = some u → s.disposed id = false →
    s.registry u.toString = some id) ∧
  (∀ id, s.nextId ≤ id → s.resourceOf id = none ∧ s.disposed id = false)

theorem regInv_init : RegInv initState := by
  refine ⟨?_, ?_, ?_⟩
  · intro k id h
    simp [initState] at h
  · intro id u h
    simp [initState] at h
  · intro id _
    exact ⟨rfl, rfl⟩

theorem regInv_getOrMake (d : ExistingData) (s : RegState) (h : RegInv s) :
    RegInv (getOrMakeSearchEditorInput d s).2 := by
  obtain ⟨hA, hB, hC⟩ := h
  simp only [getOrMakeSearchEditorInput]
  cases hreg : s.registry (dataUri d s.nextRand).toString with
  | some id => exact ⟨hA, hB, hC⟩
  | none =>
    refine ⟨?_, ?_, ?_⟩
    · intro k id hk
      by_cases hkey : k = (dataUri d s.nextRand).toString
      · simp only [hkey, if_pos rfl] at hk
        obtain rfl : s.nextId = id := Option.some.inj hk
        exact ⟨dataUri d s.nextRand, by simp, hkey.symm, (hC s.nextId le_rfl).2⟩
      · simp only [if_neg hkey] at hk
        obtain ⟨u, hu, hus, hd⟩ := hA k id hk
        have hid : id ≠ s.nextId := by
          intro hEq
          rw [hEq, (hC s.nextId le_rfl).1] at hu
          exact Option.noConfusion hu
        exact ⟨u, by simp [hid, hu], hus, hd⟩
    · intro id u hu hd
      by_cases hid : id = s.nextId
      · simp only [hid, if_pos rfl] at hu
        obtain rfl : dataUri d s.nextRand = u := Option.some.inj hu
        simp [hid]
      · simp only [if_neg hid] at hu
        have hfound := hB id u hu hd
        have hkey : u.toString ≠ (dataUri d s.nextRand).toString := by
          intro hEq
          rw [hEq, hreg] at hfound
          exact Option.noConfusion hfound
        simpa [hkey] using hfound
    · intro id hle
      have hle2 : s.nextId ≤ id := Nat.le_of_succ_le hle
      have hid : id ≠ s.nextId := Nat.ne_of_gt hle
      simp only [if_neg hid]
      exact hC id hle2

theorem regInv_dispose (id0 : Nat) (s : RegState) (h : RegInv s) :
    RegInv (disposeInput id0 s) := by
  obtain ⟨hA, hB, hC⟩ := h
  simp only [disposeInput]
  cases hres0 : s.resourceOf id0 with
  | none => exact ⟨hA, hB, hC⟩
  | some u0 =>
    by_cases hd0 : s.disposed id0 = true
    · simp only [if_pos hd0]
      exact ⟨hA, hB, hC⟩
    · simp only [if_neg hd0]
      refine ⟨?_, ?_, ?_⟩
      · intro k id hk
        by_cases hkey : k = u0.toString
        · simp [hkey] at hk
        · simp only [if_neg hkey] at hk
          obtain ⟨u, hu, hus, hd⟩ := hA k id hk
          have hid : id ≠ id0 := by
            intro hEq
            rw [hEq, hres0] at hu
            obtain rfl : u0 = u := Option.some.inj hu
            exact hkey hus.symm
          exact ⟨u, hu, hus, by simp [hid, hd]⟩
      · intro id u hu hd
        by_cases hid : id = id0
        · simp [hid] at hd
        · simp only [if_neg hid] at hd
          have hfound := hB id u hu hd
          have hkey : u.toString ≠ u0.toString := by
            intro hEq
            have hfound0 := hB id0 u0 hres0 (Bool.eq_false_iff.mpr hd0)
            rw [hEq, hfound0] at hfound
            exact hid (Option.some.inj hfound).symm
          simpa [hkey] using hfound
      · intro id hle
        have hle2 : s.nextId ≤ id := hle
        have hid : id ≠ id0 := by
          intro hEq
          rw [hEq] at hle2
          rw [(hC id0 hle2).1] at hres0
          exact Option.noConfusion hres0
        exact ⟨(hC id hle2).1, by simp [hid, (hC id hle2).2]⟩

theorem regInv_applyOp (op : Op) (s : RegState) (h : RegInv s) : RegInv (applyOp op s) := by
  cases op with
  | make d => exact regInv_getOrMake d s h
  | dispose id => exact regInv_dispose id s h

theorem regInv_reachable (s : RegState) (h : Reachable s) : RegInv s := by
  induction h with
  | init => exact regInv_init
  | step s op _ ih => exact regInv_applyOp op s ih

theorem reachable_run (ops : List Op) (s : RegState) (h : Reachable s) :
    Reachable (run ops s) := by
  induction ops generalizing s with
  | nil => exact h
  | cons op ops ih => exact ih (applyOp op s) (Reachable.step s op h)

theorem resourceOf_applyOp (op : Op) (s : RegState) (id : Nat) (u : URI)
    (h : RegInv s) (hu : s.resourceOf id = some u) :
    (applyOp op s).resourceOf id = some u := by
  obtain ⟨hA, hB, hC⟩ := h
  cases op with
  | make d =>
    simp only [applyOp, getOrMakeSearchEditorInput]
    cases hreg : s.registry (dataUri d s.nextRand).toString with
    | some j => exact hu
    | none =>
      have hid : id ≠ s.nextId := by
        intro hEq
        rw [hEq, (hC s.nextId le_rfl).1] at hu
        exact Option.noConfusion hu
      simpa [hid] using hu
  | dispose j =>
    simp only [applyOp, disposeInput]
    cases hres : s.resourceOf j with
    | none => exact hu
    | some u0 =>
      by_cases hd : s.disposed j = true
      · simp only [if_pos hd]
        exact hu
      · simp only [if_neg hd]
        exact hu

theorem resourceOf_run (ops : List Op) (s : RegState) (id : Nat) (u : URI)
    (h : RegInv s) (hu : s.resourceOf id = some u) :
    (run ops s).resourceOf id = some u := by
  induction ops generalizing s with
  | nil => exact hu
  | cons op ops ih =>
    exact ih (applyOp op s) (regInv_applyOp op s h) (resourceOf_applyOp op s id u h hu)

theorem regInv_run (ops : List Op) (s : RegState) (h : RegInv s) : RegInv (run ops s) := by
  induction ops generalizing s with
  | nil => exact h
  | cons op ops ih => exact ih (applyOp op s) (regInv_applyOp op s h)

theorem getOrMake_resource (d : ExistingData) (s : RegState) (h : RegInv s) :
    ∃ u, (getOrMakeSearchEditorInput d s).2.resourceOf (getOrMakeSearchEditorInput d s).1
        = some u
      ∧ u.toString = (dataUri d s.nextRand).toString := by
  obtain ⟨hA, _, _⟩ := h
  simp only [getOrMakeSearchEditorInput]
  cases hreg : s.registry (dataUri d s.nextRand).toString with
  | some id =>
    obtain ⟨u, hu, hus, _⟩ := hA _ id hreg
    exact ⟨u, hu, hus⟩
  | none => exact ⟨dataUri d s.nextRand, by simp, rfl⟩

theorem getOrMake_found (d : ExistingData) (s : RegState) (id : Nat)
    (h : s.registry (dataUri d s.nextRand).toString = some id) :
    getOrMakeSearchEditorInput d s = (id, s) := by
  simp only [getOrMakeSearchEditorInput, h]

/-- C1: starting from any reachable module state, once getOrMakeSearchEditorInput
has been called with a uri u, then after any further sequence of operations in
which the returned input has not been disposed, a later call with the same uri
u returns the identical input (the registry memoizes on the uri string and
deduplicates open search editors). -/
theorem getOrMake_memoizes_same_uri (s : RegState) (hs : Reachable s) (u : URI)
    (c c2 : Option SearchConfig) (ops : List Op)
    (hnd : (run ops (getOrMakeSearchEditorInput (ExistingData.withUri u c) s).2).disposed
        (getOrMakeSearchEditorInput (ExistingData.withUri u c) s).1 = false) :
    (getOrMakeSearchEditorInput (ExistingData.withUri u c2)
        (run ops (getOrMakeSearchEditorInput (ExistingData.withUri u c) s).2)).1
      = (getOrMakeSearchEditorInput (ExistingData.withUri u c) s).1 := by
  have hinv : RegInv s := regInv_reachable s hs
  obtain ⟨u2, hu2, hus2⟩ := getOrMake_resource (ExistingData.withUri u c) s hinv
  have hinv1 : RegInv (getOrMakeSearchEditorInput (ExistingData.withUri u c) s).2 :=
    regInv_getOrMake (ExistingData.withUri u c) s hinv
  have hinv2 : RegInv (run ops (getOrMakeSearchEditorInput (ExistingData.withUri u c) s).2) :=
    regInv_run ops _ hinv1
  have hres : (run ops (getOrMakeSearchEditorInput (ExistingData.withUri u c) s).2).resourceOf
      (getOrMakeSearchEditorInput (ExistingData.withUri u c) s).1 = some u2 :=
    resourceOf_run ops _ _ u2 hinv1 hu2
  have hB2 := hinv2.2.1 _ u2 hres hnd
  rw [hus2] at hB2
  have hfound := getOrMake_found (ExistingData.withUri u c2)
    (run ops (getOrMakeSearchEditorInput (ExistingData.withUri u c) s).2)
    (getOrMakeSearchEditorInput (ExistingData.withUri u c) s).1 hB2
  rw [hfound]

/-- Witness for C1 at a concrete file uri: from the empty state, calling twice
with the same uri and no disposal in between returns the same input id. -/
theorem getOrMake_memoizes_same_uri_witness :
    (run [] (getOrMakeSearchEditorInput
        (ExistingData.withUri ⟨"file", "", "/tmp/a.code-search", "", ""⟩ none) initState).2).disposed
      (getOrMakeSearchEditorInput
        (ExistingData.withUri ⟨"file", "", "/tmp/a.code-search", "", ""⟩ none) initState).1 = false
    ∧ (getOrMakeSearchEditorInput
        (ExistingData.withUri ⟨"file", "", "/tmp/a.code-search", "", ""⟩ none)
        (run [] (getOrMakeSearchEditorInput
          (ExistingData.withUri ⟨"file", "", "/tmp/a.code-search", "", ""⟩ none) initState).2)).1
      = (getOrMakeSearchEditorInput
          (ExistingData.withUri ⟨"file", "", "/tmp/a.code-search", "", ""⟩ none) initState).1 :=
  ⟨rfl, getOrMake_memoizes_same_uri initState Reachable.init
    ⟨"file", "", "/tmp/a.code-search", "", ""⟩ none none [] rfl⟩

/-- C7: in every reachable module state, every entry of the registry map is
keyed by the string form of the uri of its input and points to an input that is
not disposed; disposing an input removes every registry entry pointing to it;
and getOrMakeSearchEditorInput never returns a disposed input. -/
theorem registry_contains_only_open_editors (s : RegState) (hs : Reachable s) :
    (∀ k id, s.registry k = some id →
      ∃ u, s.resourceOf id = some u ∧ u.toString = k ∧ s.disposed id = false)
    ∧ (∀ id u, s.resourceOf id = some u → ∀ k, (disposeInput id s).registry k ≠ some id)
    ∧ (∀ d, s.disposed (getOrMakeSearchEditorInput d s).1 = false) := by
  obtain ⟨hA, hB, hC⟩ := regInv_reachable s hs
  refine ⟨hA, ?_, ?_⟩
  · intro id u hu k hk
    simp only [disposeInput, hu] at hk
    by_cases hd : s.disposed id = true
    · simp only [if_pos hd] at hk
      obtain ⟨_, _, _, hfalse⟩ := hA k id hk
      rw [hd] at hfalse
      exact Bool.noConfusion hfalse
    · simp only [if_neg hd] at hk
      by_cases hkey : k = u.toString
      · simp [hkey] at hk
      · simp only [if_neg hkey] at hk
        obtain ⟨u3, hu3, hus3, _⟩ := hA k id hk
        rw [hu] at hu3
        obtain rfl : u = u3 := Option.some.inj hu3
        exact hkey hus3.symm
  · intro d
    simp only [getOrMakeSearchEditorInput]
    cases hreg : s.registry (dataUri d s.nextRand).toString with
    | some id =>
      obtain ⟨_, _, _, hd⟩ := hA _ id hreg
      exact hd
    | none => exact (hC s.nextId le_rfl).2

/-- Witness for C7 at the empty state: the fresh input created by a text call
is not disposed. -/
theorem registry_contains_only_open_editors_witness :
    initState.disposed (getOrMakeSearchEditorInput (ExistingData.withText "abc") initState).1
      = false :=
  (registry_contains_only_open_editors initState Reachable.init).2.2
    (ExistingData.withText "abc")

/-- C2 counterexample: when getOrMakeSearchEditorInput is called with the empty
text (and with it a generated search-editor uri), no backup and no existing
model, the code throws the no-initial-contents error instead of using the
provided text as the claim states, because the JS truthiness test on the text
member treats the empty string as absent. -/
theorem getModel_empty_text_counterexample :
    (getModel (fun _ => "") (freshUri 0) (ExistingData.withText "") {}
        { hasExistingModel := false, backup := none, readValue := "" }).result
      = Except.error "no initial contents for search editor"
    ∧ (getModel (fun _ => "") (freshUri 0) (ExistingData.withText "") {}
        { hasExistingModel := false, backup := none, readValue := "" }).result
      ≠ Except.ok (ModelInit.rawText "") := by
  exact ⟨rfl, by decide⟩

/-- C2 amended: when the model is resolved and no text model exists for the
uri, the backup value takes priority (and the backup store is hit with a
discard); otherwise a non-search-editor-scheme uri is read through the text
file service; otherwise a provided NON-EMPTY text is used; otherwise a provided
config is serialized; and when none of these sources exist, in particular when
a provided text is empty and no config member is present, the
no-initial-contents error is thrown. -/
theorem getModel_resolution_order (serialize : SearchConfig → String) (uri : URI)
    (d : ExistingData) (config : SearchConfig) (env : GetModelEnv)
    (hm : env.hasExistingModel = false) :
    (∀ b, env.backup = some b →
      getModel serialize uri d config env
        = { result := Except.ok (ModelInit.rawText b), backupDiscarded := true })
    ∧ (env.backup = none → uri.scheme ≠ SearchEditorScheme →
      getModel serialize uri d config env
        = { result := Except.ok (ModelInit.rawText env.readValue), backupDiscarded := true })
    ∧ (env.backup = none → uri.scheme = SearchEditorScheme →
      ∀ t, d.textField = some t → t ≠ "" →
      getModel serialize uri d config env
        = { result := Except.ok (ModelInit.rawText t), backupDiscarded := true })
    ∧ (env.backup = none → uri.scheme = SearchEditorScheme → d.textTruthy = false →
      ∀ c, d.configField = some c →
      getModel serialize uri d config env
        = { result := Except.ok (ModelInit.rawText (serialize c)), backupDiscarded := true })
    ∧ (env.backup = none → uri.scheme = SearchEditorScheme → d.textTruthy = false →
      d.configField = none →
      getModel serialize uri d config env
        = { result := Except.error "no initial contents for search editor",
            backupDiscarded := true }) := by
  refine ⟨?_, ?_, ?_, ?_, ?_⟩
  · intro b hb
    simp [getModel, hm, hb]
  · intro hb hscheme
    simp [getModel, hm, hb, hscheme]
  · intro hb hscheme t ht htne
    have htt : d.textTruthy = true := by
      simp [ExistingData.textTruthy, ht, htne]
    simp [getModel, hm, hb, hscheme, htt, ht]
  · intro hb hscheme htt c hc
    simp [getModel, hm, hb, hscheme, htt, hc]
  · intro hb hscheme htt hc
    simp [getModel, hm, hb, hscheme, htt, hc]

/-- Witness for C2 amended at a concrete environment: a present backup wins. -/
theorem getModel_resolution_order_witness :
    getModel (fun _ => "serialized") (freshUri 0) (ExistingData.withText "hello") {}
        { hasExistingModel := false, backup := some "backup contents", readValue := "read" }
      = { result := Except.ok (ModelInit.rawText "backup contents"), backupDiscarded := true } :=
  (getModel_resolution_order (fun _ => "serialized") (freshUri 0)
    (ExistingData.withText "hello") {}
    { hasExistingModel := false, backup := some "backup contents", readValue := "read" }
    rfl).1 "backup contents" rfl

/-- C4 counterexample: with an empty text argument the starting config is the
empty partial configuration, not the result of extractSearchQuery on the text;
exhibited with a concrete extraction function that distinguishes the two. -/
theorem computeConfig_empty_text_counterexample :
    computeConfig (fun t => { query := some t }) (ExistingData.withText "") = {}
    ∧ computeConfig (fun t => { query := some t }) (ExistingData.withText "")
      ≠ (fun t => ({ query := some t } : SearchConfig)) "" := by
  exact ⟨rfl, by decide⟩

/-- C4 amended: for every extraction and serialization collaborator, a call
with a NON-EMPTY text argument gives the input the starting config
extractSearchQuery of the text (an empty text gives the empty partial config),
and a call with only a config (generated uri, no text, no backup, no existing
model) produces a model whose initial contents are
serializeSearchConfiguration of that config. -/
theorem config_serialization_delegated (extractSearchQuery : String → SearchConfig)
    (serializeSearchConfiguration : SearchConfig → String) (t : String) (c : SearchConfig)
    (n : Nat) (env : GetModelEnv) (ht : t ≠ "") (hm : env.hasExistingModel = false)
    (hb : env.backup = none) :
    computeConfig extractSearchQuery (ExistingData.withText t) = extractSearchQuery t
    ∧ computeConfig extractSearchQuery (ExistingData.withText "") = {}
    ∧ getModel serializeSearchConfiguration (freshUri n) (ExistingData.withConfig c)
        (computeConfig extractSearchQuery (ExistingData.withConfig c)) env
      = { result :=
            Except.ok (ModelInit.rawText (serializeSearchConfiguration c)),
          backupDiscarded := true } := by
  refine ⟨?_, rfl, ?_⟩
  · simp [computeConfig, ExistingData.configField, ExistingData.textField, ht]
  · simp [getModel, hm, hb, freshUri, ExistingData.textTruthy, ExistingData.textField,
      ExistingData.configField]

/-- Witness for C4 amended at a concrete non-empty text and concrete config. -/
theorem config_serialization_delegated_witness :
    computeConfig (fun t => { query := some t }) (ExistingData.withText "find me")
      = (fun t => ({ query := some t } : SearchConfig)) "find me"
    ∧ getModel (fun _ => "serialized config") (freshUri 3)
        (ExistingData.withConfig { query := some "q" })
        (computeConfig (fun t => { query := some t })
          (ExistingData.withConfig { query := some "q" }))
        { hasExistingModel := false, backup := none, readValue := "" }
      = { result := Except.ok (ModelInit.rawText "serialized config"),
          backupDiscarded := true } := by
  have h := config_serialization_delegated (fun t => { query := some t })
    (fun _ => "serialized config") "find me" { query := some "q" } 3
    { hasExistingModel := false, backup := none, readValue := "" }
    (by decide) rfl rfl
  exact ⟨h.1, h.2.2⟩

/-- C3: constructing a SearchEditorInput registers exactly one working copy
(the list grows by exactly the one new adapter); the adapter resource equals
the input resource; its name and dirty accessors coincide with getName and
isDirty of the input on every state; the Untitled capability is set iff the
input is untitled, that is, iff the resource scheme is the search-editor
scheme; and its backup, save and revert delegate to the backup, save and
revert of the input. -/
theorem constructor_registers_one_working_copy (resource : URI)
    (startingConfig : Option SearchConfig) (wcs : List WorkingCopy) :
    (constructInput resource startingConfig wcs).2.2
      = wcs ++ [(constructInput resource startingConfig wcs).2.1]
    ∧ ((constructInput resource startingConfig wcs).2.2).length = wcs.length + 1
    ∧ (constructInput resource startingConfig wcs).2.1.resource
      = (constructInput resource startingConfig wcs).1.resource
    ∧ (∀ st, (constructInput resource startingConfig wcs).2.1.name st = st.getName 12)
    ∧ (∀ st, (constructInput resource startingConfig wcs).2.1.isDirty st = st.isDirty)
    ∧ ((constructInput resource startingConfig wcs).2.1.capabilities
        = WorkingCopyCapabilities.Untitled
      ↔ (constructInput resource startingConfig wcs).1.isUntitled = true)
    ∧ (∀ model, (constructInput resource startingConfig wcs).2.1.backup model
        = backupOp model)
    ∧ (∀ inp model host env,
        (constructInput resource startingConfig wcs).2.1.save inp model host env
          = ((saveOp inp model host env).1.isSome, (saveOp inp model host env).2.1,
            (saveOp inp model host env).2.2))
    ∧ (∀ inp, (constructInput resource startingConfig wcs).2.1.revert inp = revertOp inp) := by
  refine ⟨rfl, by simp [constructInput, registerWorkingCopy], rfl, fun st => rfl, fun st => rfl,
    ?_, fun model => rfl, fun inp model host env => rfl, fun inp => rfl⟩
  by_cases h : resource.scheme = SearchEditorScheme <;>
    simp [constructInput, mkWorkingCopyAdapter, InputState.isUntitled,
      WorkingCopyCapabilities.Untitled, h]

/-- C5: on an input whose model is not disposed, save delegates entirely to
saveAs when the input is untitled, and otherwise writes the model snapshot to
the input resource through the text file service, clears the dirty flag and
returns the input itself. -/
theorem save_writes_or_delegates (inp : InputState) (model : ModelState) (host : HostState)
    (env : SaveEnv) (hm : model.disposed = false) :
    (inp.isUntitled = true → saveOp inp model host env = saveAsOp inp model host env)
    ∧ (inp.isUntitled = false →
      saveOp inp model host env
        = (some SaveOutcome.self, { inp with dirty := false },
          { host with fileWrites := host.fileWrites ++ [(inp.resource, model.snapshot)] })) := by
  constructor
  · intro hu
    simp [saveOp, hm, hu]
  · intro hu
    simp [saveOp, hm, hu]

/-- Witness for C5 at a concrete titled input: save writes the snapshot,
clears the dirty flag and returns the receiver. -/
theorem save_writes_or_delegates_witness :
    saveOp
        { resource := { scheme := "file", path := "/tmp/a.code-search" }, dirty := true,
          query := none, highlights := [] }
        { disposed := false, snapshot := "snap", searchConfig := {}, decorations := [] }
        { fileWrites := [], saveAsCalls := [], telemetryEvents := [] }
        { pickFileToSave := none, saveAsSucceeds := true }
      = (some SaveOutcome.self,
        { resource := { scheme := "file", path := "/tmp/a.code-search" }, dirty := false,
          query := none, highlights := [] },
        { fileWrites := [({ scheme := "file", path := "/tmp/a.code-search" }, "snap")],
          saveAsCalls := [], telemetryEvents := [] }) :=
  (save_writes_or_delegates
    { resource := { scheme := "file", path := "/tmp/a.code-search" }, dirty := true,
      query := none, highlights := [] }
    { disposed := false, snapshot := "snap", searchConfig := {}, decorations := [] }
    { fileWrites := [], saveAsCalls := [], telemetryEvents := [] }
    { pickFileToSave := none, saveAsSucceeds := true } rfl).2 rfl

/-- C6: when the file dialog service yields no path, saveAs returns undefined,
keeps the dirty flag, and leaves every host log unchanged (no text file write,
no saveAs call, no telemetry event); moreover a changed telemetry log or a
saveAs call can only arise from an environment in which a path was picked. -/
theorem saveAs_cancel_has_no_effect (inp : InputState) (model : ModelState)
    (host : HostState) (env : SaveEnv) (hpick : env.pickFileToSave = none) :
    (saveAsOp inp model host env).1 = none
    ∧ (saveAsOp inp model host env).2.1.dirty = inp.dirty
    ∧ (saveAsOp inp model host env).2.2 = host
    ∧ (∀ env2, (saveAsOp inp model host env2).2.2.telemetryEvents ≠ host.telemetryEvents
        → env2.pickFileToSave ≠ none)
    ∧ (∀ env2, (saveAsOp inp model host env2).2.2.saveAsCalls ≠ host.saveAsCalls
        → env2.pickFileToSave ≠ none) := by
  refine ⟨?_, ?_, ?_, ?_, ?_⟩
  · simp [saveAsOp, hpick]
  · simp [saveAsOp, hpick]
  · simp [saveAsOp, hpick]
  · intro env2 hne hnone
    apply hne
    simp [saveAsOp, hnone]
  · intro env2 hne hnone
    apply hne
    simp [saveAsOp, hnone]

/-- Witness for C6 at a concrete cancelled dialog: undefined result, dirty flag
kept, host logs unchanged. -/
theorem saveAs_cancel_has_no_effect_witness :
    (saveAsOp
        { resource := freshUri 0, dirty := true, query := none, highlights := [] }
        { disposed := false, snapshot := "snap", searchConfig := {}, decorations := [] }
        { fileWrites := [], saveAsCalls := [], telemetryEvents := [] }
        { pickFileToSave := none, saveAsSucceeds := true }).1 = none
    ∧ (saveAsOp
        { resource := freshUri 0, dirty := true, query := none, highlights := [] }
        { disposed := false, snapshot := "snap", searchConfig := {}, decorations := [] }
        { fileWrites := [], saveAsCalls := [], telemetryEvents := [] }
        { pickFileToSave := none, saveAsSucceeds := true }).2.1.dirty = true := by
  have h := saveAs_cancel_has_no_effect
    { resource := freshUri 0, dirty := true, query := none, highlights := [] }
    { disposed := false, snapshot := "snap", searchConfig := {}, decorations := [] }
    { fileWrites := [], saveAsCalls := [], telemetryEvents := [] }
    { pickFileToSave := none, saveAsSucceeds := true } rfl
  exact ⟨h.1, h.2.1⟩

/-- C8: isSaving is true exactly when the input is dirty, is not untitled, and
the files configuration service reports the short auto-save delay; in
particular isSaving implies isDirty, and an untitled input is never saving. -/
theorem isSaving_only_when_dirty_titled_autosave (inp : InputState) (mode : AutoSaveMode) :
    (inp.isSaving mode = true
      ↔ inp.isDirty = true ∧ inp.isUntitled = false ∧ mode = AutoSaveMode.AFTER_SHORT_DELAY)
    ∧ (inp.isSaving mode = true → inp.isDirty = true)
    ∧ (inp.isUntitled = true → inp.isSaving mode = false) := by
  cases hd : inp.isDirty <;> cases hu : inp.isUntitled <;>
    by_cases hmm : mode = AutoSaveMode.AFTER_SHORT_DELAY <;>
    simp [InputState.isSaving, hd, hu, hmm]

/-- Witness for C8 at a concrete dirty titled input under the short auto-save
delay: isSaving implies isDirty there. -/
theorem isSaving_only_when_dirty_titled_autosave_witness :
    InputState.isDirty
        { resource := { scheme := "file", path := "/a" }, dirty := true, query := none,
          highlights := [] }
      = true :=
  (isSaving_only_when_dirty_titled_autosave
    { resource := { scheme := "file", path := "/a" }, dirty := true, query := none,
      highlights := [] }
    AutoSaveMode.AFTER_SHORT_DELAY).2.1 rfl

/-- C9: with the default maxLength of 12, the trimmed query label embedded in
the name of an untitled input is at most 12 characters: a label shorter than 12
characters is kept, a label of 12 or more characters is replaced by its first 9
characters followed by three dots; and an untitled input whose query is absent
or trims to the empty string gets the plain search title. -/
theorem getName_query_label_bounded (inp : InputState) (q : String) :
    (∀ label : String, (trimToMax 12 label).length ≤ 12)
    ∧ (∀ label : String, label.length < 12 → trimToMax 12 label = label)
    ∧ (∀ label : String, 12 ≤ label.length → trimToMax 12 label = sliceTo label 9 ++ "...")
    ∧ (inp.isUntitled = true → inp.query.bind (fun c => c.query) = some q → jsTrim q ≠ "" →
      inp.getName 12 = localizeWithQuery (trimToMax 12 (jsTrim q)))
    ∧ (inp.isUntitled = true → inp.query.bind (fun c => c.query) = some q → jsTrim q = "" →
      inp.getName 12 = searchTitle)
    ∧ (inp.isUntitled = true → inp.query.bind (fun c => c.query) = none →
      inp.getName 12 = searchTitle) := by
  refine ⟨?_, ?_, ?_, ?_, ?_, ?_⟩
  · intro label
    by_cases h : label.length < 12
    · simp only [trimToMax, if_pos h]
      omega
    · simp only [trimToMax, if_neg h]
      have h1 : (sliceTo label (12 - 3)).length = (label.data.take 9).length := rfl
      rw [String.length_append, h1, List.length_take]
      have h3 : ("..." : String).length = 3 := rfl
      omega
  · intro label h
    simp [trimToMax, h]
  · intro label h
    have h2 : ¬ label.length < 12 := by omega
    simp only [trimToMax, if_neg h2]
  · intro hu hq ht
    simp [InputState.getName, hu, hq, ht]
  · intro hu hq ht
    simp [InputState.getName, hu, hq, ht]
  · intro hu hq
    simp [InputState.getName, hu, hq]

/-- Witness for C9 at an untitled input with a 20-character query: the name is
the localized label trimmed to 9 characters plus dots. -/
theorem getName_query_label_bounded_witness :
    InputState.getName
        { resource := freshUri 1, dirty := false,
          query := some { query := some "this is a long query" }, highlights := [] } 12
      = localizeWithQuery (trimToMax 12 (jsTrim "this is a long query")) :=
  (getName_query_label_bounded
    { resource := freshUri 1, dirty := false,
      query := some { query := some "this is a long query" }, highlights := [] }
    "this is a long query").2.2.2.1 rfl rfl (by decide)

theorem inputMatches_eq (i1 : Nat) (s1 : InputState) (i2 : Nat) (s2 : InputState) :
    inputMatches i1 s1 (EditorArg.searchInput i2 s2)
      = (decide (i1 = i2)
        || ((s2.resource.path != "" && s2.resource.path == s1.resource.path)
          || (s2.resource.fragment != "" && s2.resource.fragment == s1.resource.fragment))) := by
  simp only [inputMatches]
  by_cases h : i1 = i2
  · simp [h]
  · simp only [if_neg h, decide_eq_false h, Bool.false_or]
    cases hc : ((s2.resource.path != "" && s2.resource.path == s1.resource.path)
        || (s2.resource.fragment != "" && s2.resource.fragment == s1.resource.fragment)) <;>
      simp [hc]

/-- C10: matches is reflexive and symmetric on search editor inputs, returns
false for any value that is not a SearchEditorInput, and two distinct inputs
match exactly when their resources have equal non-empty paths or equal
non-empty fragments. -/
theorem matches_reflexive_symmetric (i1 i2 : Nat) (s1 s2 : InputState) :
    (∀ id st, inputMatches id st (EditorArg.searchInput id st) = true)
    ∧ (inputMatches i1 s1 (EditorArg.searchInput i2 s2)
        = inputMatches i2 s2 (EditorArg.searchInput i1 s1))
    ∧ (∀ id st, inputMatches id st EditorArg.otherInput = false)
    ∧ (i1 ≠ i2 →
      (inputMatches i1 s1 (EditorArg.searchInput i2 s2) = true
        ↔ ((s2.resource.path ≠ "" ∧ s2.resource.path = s1.resource.path)
          ∨ (s2.resource.fragment ≠ "" ∧ s2.resource.fragment = s1.resource.fragment)))) := by
  refine ⟨?_, ?_, ?_, ?_⟩
  · intro id st
    simp [inputMatches]
  · rw [inputMatches_eq, inputMatches_eq, Bool.eq_iff_iff]
    simp only [Bool.or_eq_true, Bool.and_eq_true, decide_eq_true_eq, bne_iff_ne, ne_eq,
      beq_iff_eq]
    constructor
    · rintro (h | ⟨hne, heq⟩ | ⟨hne, heq⟩)
      · exact Or.inl h.symm
      · exact Or.inr (Or.inl ⟨heq ▸ hne, heq.symm⟩)
      · exact Or.inr (Or.inr ⟨heq ▸ hne, heq.symm⟩)
    · rintro (h | ⟨hne, heq⟩ | ⟨hne, heq⟩)
      · exact Or.inl h.symm
      · exact Or.inr (Or.inl ⟨heq ▸ hne, heq.symm⟩)
      · exact Or.inr (Or.inr ⟨heq ▸ hne, heq.symm⟩)
  · intro id st
    simp [inputMatches]
  · intro h12
    rw [inputMatches_eq]
    simp only [decide_eq_false h12, Bool.false_or, Bool.or_eq_true, Bool.and_eq_true,
      bne_iff_ne, ne_eq, beq_iff_eq]

/-- Witness for C10 at two distinct inputs sharing the non-empty path "/a":
they match. -/
theorem matches_reflexive_symmetric_witness :
    inputMatches 0
        { resource := { scheme := "file", path := "/a" }, dirty := false, query := none,
          highlights := [] }
        (EditorArg.searchInput 1
          { resource := { scheme := "file", path := "/a", fragment := "f" }, dirty := false,
            query := none, highlights := [] })
      = true :=
  ((matches_reflexive_symmetric 0 1
    { resource := { scheme := "file", path := "/a" }, dirty := false, query := none,
      highlights := [] }
    { resource := { scheme := "file", path := "/a", fragment := "f" }, dirty := false,
      query := none, highlights := [] }).2.2.2 (by decide)).mpr
    (Or.inl ⟨by decide, rfl⟩)

end SearchEditor
